import Mathlib

/-!
Shallow embedding of the chat-with-pdf RAG pipeline
(`src/RAG/chatwithpdf/index.js` and `src/RAG/chatwithpdf/query.js`).

External services (the generation model, the embedding client and the
vector store) are oracles passed as function parameters returning
`Except ServiceError`. The process-global `History` array is threaded as
explicit state: each stateful operation returns the new history together
with its result, also on the failure path, so the returned state mirrors
which JS mutations have already happened when an exception propagates out
of the original code.
-/

namespace ChatWithPdf

set_option maxRecDepth 8192

/-- Equality of `Except` results is decidable componentwise. -/
instance {e a : Type} [DecidableEq e] [DecidableEq a] : DecidableEq (Except e a) := fun x y =>
  match x, y with
  | .ok u, .ok v =>
    if h : u = v then .isTrue (by rw [h]) else .isFalse (by intro hc; cases hc; exact h rfl)
  | .error u, .error v =>
    if h : u = v then .isTrue (by rw [h]) else .isFalse (by intro hc; cases hc; exact h rfl)
  | .ok _, .error _ => .isFalse (by intro hc; cases hc)
  | .error _, .ok _ => .isFalse (by intro hc; cases hc)

/-- Role of a conversation turn (`role: 'user' | 'model'` in the source). -/
inductive Role
  | user
  | model
deriving DecidableEq, Repr

/-- One history entry. The source shape `{ role, parts: [{ text }] }` always
holds exactly one part, flattened here to a single text field. -/
structure Turn where
  role : Role
  text : String
deriving DecidableEq, Repr

/-- Failure of an external service call (network, rate limit, malformed
response), carrying the failed stage name. -/
structure ServiceError where
  stage : String
deriving DecidableEq, Repr

/-- Invalid chunking parameters, detected before any work is done. -/
inductive ConfigError
  | overlapGeChunkSize
deriving DecidableEq, Repr

/-- Metadata stored with a vector-store match (`match.metadata`). -/
structure MatchMetadata where
  text : String
deriving DecidableEq, Repr

/-- One nearest-neighbor match returned by the vector store. -/
structure MatchRec where
  metadata : MatchMetadata
  score : Int
deriving DecidableEq, Repr

/-- Oracle for `ai.models.generateContent`: history contents and system
instruction to response text. -/
abbrev GenModel := List Turn → String → Except ServiceError String

/-- Oracle for `embeddingModel.embedQuery`. -/
abbrev EmbedClient := String → Except ServiceError (List Int)

/-- Oracle for `pineconeIndex.query`, taking the query vector and `topK`. -/
abbrev VectorQuery := List Int → Nat → Except ServiceError (List MatchRec)

/-- System instruction of the query-rewriting call (query.js, lines 27-28). -/
def rewriteInstruction : String :=
  "You are a query rewriting expert. Based on the provided chat history, rephrase the \"Follow Up user Question\" into a complete, standalone question that can be understood without the chat history.\n    Only output the rewritten question and nothing else."

/-- Fixed fallback sentence mandated when the answer is not in the context. -/
def fallbackAnswer : String :=
  "I could not find the answer in the provided document."

/-- Generation system instruction up to the interpolated context
(query.js, lines 77-83). -/
def answerInstructionPre : String :=
  "You have to behave like a Data Structure and Algorithm Expert.\n    You will be given a context of relevant information and a user question.\n    Your task is to answer the user's question based ONLY on the provided context.\n    If the answer is not in the context, you must say \"I could not find the answer in the provided document.\"\n    Keep your answers clear, concise, and educational.\n      \n      Context: "

/-- Generation system instruction with the retrieved context interpolated
into the template literal. -/
def answerInstruction (context : String) : String :=
  answerInstructionPre ++ context ++ "\n      "

/-- Delimiter placed between retrieved chunks (query.js, line 64). -/
def contextSeparator : String := "\n\n---\n\n"

/-- Evidence block built from the matches:
`searchResults.matches.map(match => match.metadata.text).join("\n\n---\n\n")`. -/
def buildContext (results : List MatchRec) : String :=
  String.intercalate contextSeparator (results.map (fun m => m.metadata.text))

/-- `transformQuery` (query.js, lines 16-36): push a provisional user turn,
call the rewriting model, pop, return the rewritten text. When the model
call throws, the pop does not run, so the returned state keeps the
provisional turn. -/
def transformQuery (gen : GenModel) (history : List Turn) (question : String) :
    List Turn × Except ServiceError String :=
  let h1 := history ++ [⟨Role.user, question⟩]
  match gen h1 rewriteInstruction with
  | .error e => (h1, .error e)
  | .ok t => (h1.dropLast, .ok t)

/-- `chatting` (query.js, lines 39-97): rewrite, embed, retrieve with
`topK = 10`, assemble the context, push the rewritten query as a user turn,
generate, push the model turn. Returns the history state together with the
outcome, also on the failure path. -/
def chatting (gen : GenModel) (embed : EmbedClient) (vquery : VectorQuery)
    (history : List Turn) (question : String) :
    List Turn × Except ServiceError String :=
  match transformQuery gen history question with
  | (h1, .error e) => (h1, .error e)
  | (h1, .ok enhancedQuery) =>
    match embed enhancedQuery with
    | .error e => (h1, .error e)
    | .ok queryVector =>
      match vquery queryVector 10 with
      | .error e => (h1, .error e)
      | .ok searchResults =>
        let context := buildContext searchResults
        let h2 := h1 ++ [⟨Role.user, enhancedQuery⟩]
        match gen h2 (answerInstruction context) with
        | .error e => (h2, .error e)
        | .ok responseText => (h2 ++ [⟨Role.model, responseText⟩], .ok responseText)

/-- Session loop (`main` in query.js): feed the utterances one at a time,
threading the history; `none` when some turn fails. -/
def runTurns (gen : GenModel) (embed : EmbedClient) (vquery : VectorQuery) :
    List Turn → List String → Option (List Turn)
  | h, [] => some h
  | h, q :: qs =>
    match chatting gen embed vquery h q with
    | (h1, .ok _) => runTurns gen embed vquery h1 qs
    | (_, .error _) => none

/-- Modelled from the spec: the source delegates chunking to the external
`RecursiveCharacterTextSplitter` library, which is not part of this
repository; spec section 4.1 gives the Chunker algorithm: scan left to
right, each chunk is `text[offset : offset+chunkSize]`, the next offset is
`offset + chunkSize - overlap`, stop when `offset >= length(text)`. Fuel
bounds the recursion; `text.length + 1` steps always suffice when
`overlap < chunkSize`. -/
def chunkGo (text : List Char) (S O : Nat) : Nat → Nat → List (List Char)
  | _, 0 => []
  | off, fuel + 1 =>
    if off < text.length then
      ((text.drop off).take S) :: chunkGo text S O (off + (S - O)) fuel
    else []

/-- Modelled from the spec: `chunk(document, chunkSize, overlap)`; fails
with `ConfigError` if `overlap >= chunkSize` (spec sections 4.1 and 7). -/
def chunk (text : List Char) (S O : Nat) : Except ConfigError (List (List Char)) :=
  if S ≤ O then .error ConfigError.overlapGeChunkSize
  else .ok (chunkGo text S O 0 (text.length + 1))

/-- Row persisted in the Vector Store. -/
structure IndexedVector where
  id : String
  embedding : List Int
  text : String
  sourceId : String
deriving DecidableEq, Repr

/-- Contents of the Vector Store, one row per id. -/
abbrev VectorStore := List IndexedVector

/-- Whether some row of the store already carries the given id. -/
def hasId (s : VectorStore) (i : String) : Bool :=
  s.any (fun w => w.id == i)

/-- Modelled from the spec: the Vector Store `upsert` boundary (spec
section 6) with id uniqueness enforced by the store (spec section 3): an
existing row with the same id is overwritten in place, otherwise the row
is appended. -/
def upsertOne (s : VectorStore) (v : IndexedVector) : VectorStore :=
  if hasId s v.id then s.map (fun w => if w.id == v.id then v else w)
  else s ++ [v]

/-- Upsert a batch of rows, one after another. -/
def upsertMany (s : VectorStore) (vs : List IndexedVector) : VectorStore :=
  vs.foldl upsertOne s

/-- Document handed to ingestion: raw text plus source identifier. -/
structure Document where
  text : List Char
  sourceId : String

/-- Modelled from the spec: the id scheme and the upsert call live in the
external `PineconeStore.fromDocuments` library, not in this repository;
spec section 4.2 prescribes chunking the document, embedding each chunk,
and upserting each (vector, text) pair under the stable id
`sourceId#offset`. The embedding client is a deterministic oracle. -/
def ingest (embed : List Char → List Int) (store : VectorStore) (d : Document)
    (S O : Nat) : Except ConfigError VectorStore :=
  match chunk d.text S O with
  | .error e => .error e
  | .ok cs =>
    .ok (upsertMany store (cs.enum.map (fun p =>
      ⟨d.sourceId ++ "#" ++ toString (p.1 * (S - O)), embed p.2, String.mk p.2,
        d.sourceId⟩)))

/-- Constructor arguments of `GoogleGenerativeAIEmbeddings` as they appear
in the source: the environment variable holding the api key and the model
identifier. -/
structure EmbeddingsConfig where
  apiKeyEnvVar : String
  model : String
deriving DecidableEq, Repr

/-- Embedding client configured at ingestion time (index.js, lines 26-29). -/
def ingestionEmbeddings : EmbeddingsConfig :=
  ⟨"GEMINI_API_KEY", "text-embedding-004"⟩

/-- Embedding client configured at query time (query.js, lines 45-48). -/
def queryEmbeddings : EmbeddingsConfig :=
  ⟨"GEMINI_API_KEY", "text-embedding-004"⟩

/-- Join function exactly as the spec words it: the texts in the given
order, separated by the fixed delimiter; the empty input gives the empty
string. -/
def joinSpec (sep : String) : List String → String
  | [] => ""
  | [t] => t
  | t :: ts => t ++ sep ++ joinSpec sep ts

/-- Tail part of a separated join: a separator before every element. -/
def joinTail (sep : String) : List String → String
  | [] => ""
  | t :: ts => sep ++ t ++ joinTail sep ts

/-- Concrete match used to exercise the pipeline. -/
def demoMatch : MatchRec :=
  ⟨⟨"Binary search trees have O(log n) average lookup time."⟩, 9⟩

/-- Generation oracle that always succeeds with a fixed answer. -/
def genOk : GenModel := fun _ _ => .ok "Average lookup time of a BST is O(log n)."

/-- Fixed rewritten query produced by the demo generation oracles below.
They recognise the answer-generation call by this text standing as the last
history entry (the turn `chatting` pushes right before generating). -/
def demoRewritten : String := "What is the average lookup time of a BST?"

/-- Generation oracle that rewrites fine but fails on the answer call. -/
def genFailAnswer : GenModel := fun hist _ =>
  if hist.getLast?.map Turn.text = some demoRewritten then .error ⟨"generation"⟩
  else .ok demoRewritten

/-- Generation oracle that always fails. -/
def genFailAlways : GenModel := fun _ _ => .error ⟨"rewrite"⟩

/-- Generation oracle that rewrites fine but answers off-script instead of
emitting the mandated fallback sentence. -/
def genOffTopic : GenModel := fun hist _ =>
  if hist.getLast?.map Turn.text = some demoRewritten then
    .ok "The document does not discuss this."
  else .ok demoRewritten

/-- Generation oracle that rewrites fine and complies with the fallback
instruction on the answer call. -/
def genCompliant : GenModel := fun hist _ =>
  if hist.getLast?.map Turn.text = some demoRewritten then .ok fallbackAnswer
  else .ok demoRewritten

/-- Embedding oracle that always succeeds. -/
def embedOk : EmbedClient := fun _ => .ok [1, 2, 3]

/-- Embedding oracle that always fails. -/
def embedFail : EmbedClient := fun _ => .error ⟨"embedding"⟩

/-- Vector-store oracle returning a single match. -/
def vqueryOne : VectorQuery := fun _ _ => .ok [demoMatch]

/-- Vector-store oracle returning no matches. -/
def vqueryEmpty : VectorQuery := fun _ _ => .ok []

/-- Vector-store oracle that always fails. -/
def vqueryFail : VectorQuery := fun _ _ => .error ⟨"vector-store"⟩

/-- Concrete three-character document used to exercise ingestion. -/
def demoDoc : Document := ⟨['a', 'b', 'c'], "Dsa.pdf"⟩

/-- Deterministic embedding function used to exercise ingestion. -/
def demoEmbed : List Char → List Int := fun c => [Int.ofNat c.length]

/-- Store contents after ingesting `demoDoc` with chunkSize 2, overlap 1. -/
def demoStore1 : VectorStore :=
  [⟨"Dsa.pdf#0", [2], "ab", "Dsa.pdf"⟩,
   ⟨"Dsa.pdf#1", [2], "bc", "Dsa.pdf"⟩,
   ⟨"Dsa.pdf#2", [1], "c", "Dsa.pdf"⟩]

/-- Store contents after re-ingesting `demoDoc` into `demoStore1`. -/
def demoStore2 : VectorStore :=
  [⟨"Dsa.pdf#0", [2], "ab", "Dsa.pdf"⟩,
   ⟨"Dsa.pdf#1", [2], "bc", "Dsa.pdf"⟩,
   ⟨"Dsa.pdf#2", [1], "c", "Dsa.pdf"⟩]

/-- When the rewriting call succeeds, the pop undoes the provisional push:
the state returned by `transformQuery` is the original history. -/
theorem transformQuery_ok (gen : GenModel) (h : List Turn) (q t : String)
    (hg : gen (h ++ [⟨Role.user, q⟩]) rewriteInstruction = .ok t) :
    transformQuery gen h q = (h, .ok t) := by
  simp only [transformQuery, hg, List.dropLast_concat]

/-- When the rewriting call fails, the pop is skipped: the state returned by
`transformQuery` keeps the provisional user turn. -/
theorem transformQuery_error (gen : GenModel) (h : List Turn) (q : String)
    (e : ServiceError)
    (hg : gen (h ++ [⟨Role.user, q⟩]) rewriteInstruction = .error e) :
    transformQuery gen h q = (h ++ [⟨Role.user, q⟩], .error e) := by
  simp only [transformQuery, hg]

/-- Success path of `chatting`: the rewritten query is appended as a user
turn, generation runs on that extended history, and the response is
appended as a model turn. -/
theorem chatting_ok (gen : GenModel) (embed : EmbedClient) (vquery : VectorQuery)
    (h : List Turn) (q rq : String) (qv : List Int) (sr : List MatchRec)
    (resp : String)
    (h1 : gen (h ++ [⟨Role.user, q⟩]) rewriteInstruction = .ok rq)
    (h2 : embed rq = .ok qv)
    (h3 : vquery qv 10 = .ok sr)
    (h4 : gen (h ++ [⟨Role.user, rq⟩]) (answerInstruction (buildContext sr)) = .ok resp) :
    chatting gen embed vquery h q =
      (h ++ [⟨Role.user, rq⟩, ⟨Role.model, resp⟩], .ok resp) := by
  unfold chatting
  rw [transformQuery_ok gen h q rq h1]
  simp [h2, h3, h4]

/-- A successful `transformQuery` leaves the history it was given. -/
theorem transformQuery_ok_inv (gen : GenModel) (h hx : List Turn) (q t : String)
    (ht : transformQuery gen h q = (hx, .ok t)) : hx = h := by
  simp only [transformQuery] at ht
  split at ht
  · simp at ht
  · rw [Prod.mk.injEq] at ht
    obtain ⟨ha, _⟩ := ht
    rw [← ha, List.dropLast_concat]

/-- A successful `chatting` turn extends the history by exactly one user
turn (some rewritten query) and one model turn (the returned response). -/
theorem chatting_ok_inv (gen : GenModel) (embed : EmbedClient) (vquery : VectorQuery)
    (h hx : List Turn) (q r : String)
    (hc : chatting gen embed vquery h q = (hx, .ok r)) :
    ∃ rq, hx = h ++ [⟨Role.user, rq⟩, ⟨Role.model, r⟩] := by
  unfold chatting at hc
  rcases hg : gen (h ++ [⟨Role.user, q⟩]) rewriteInstruction with e | rq
  · rw [transformQuery_error gen h q e hg] at hc
    simp at hc
  · rw [transformQuery_ok gen h q rq hg] at hc
    rcases he : embed rq with e | qv
    · simp [he] at hc
    · simp only [he] at hc
      rcases hv : vquery qv 10 with e | sr
      · simp [hv] at hc
      · simp only [hv] at hc
        rcases ha : gen (h ++ [⟨Role.user, rq⟩]) (answerInstruction (buildContext sr))
          with e | resp
        · simp [ha] at hc
        · simp only [ha] at hc
          simp only [Prod.mk.injEq, Except.ok.injEq] at hc
          obtain ⟨hxeq, hrr⟩ := hc
          subst hrr
          exact ⟨rq, by rw [← hxeq]; simp⟩

/-- A successful turn adds exactly two entries to the history. -/
theorem chatting_ok_length (gen : GenModel) (embed : EmbedClient)
    (vquery : VectorQuery) (h hx : List Turn) (q r : String)
    (hc : chatting gen embed vquery h q = (hx, .ok r)) :
    hx.length = h.length + 2 := by
  obtain ⟨rq, hrq⟩ := chatting_ok_inv gen embed vquery h hx q r hc
  subst hrq
  simp

/-- Running a list of turns that all succeed grows the history by two
entries per turn. -/
theorem runTurns_length (gen : GenModel) (embed : EmbedClient) (vquery : VectorQuery) :
    ∀ (qs : List String) (h hx : List Turn),
      runTurns gen embed vquery h qs = some hx →
      hx.length = h.length + 2 * qs.length := by
  intro qs
  induction qs with
  | nil =>
    intro h hx hr
    simp only [runTurns, Option.some.injEq] at hr
    subst hr
    simp
  | cons q qs ih =>
    intro h hx hr
    unfold runTurns at hr
    split at hr
    next h1 r heq =>
      have hl1 := chatting_ok_length gen embed vquery h h1 q r heq
      have hl2 := ih h1 hx hr
      rw [hl2, hl1, List.length_cons]
      omega
    next y e heq => cases hr

/-- C5: starting from the empty session history, after any number N of
completed user-model exchanges the length of ConversationHistory is exactly
2 * N — one user turn plus one model turn per completed exchange, with no
stray provisional entries remaining. -/
theorem session_history_length (gen : GenModel) (embed : EmbedClient)
    (vquery : VectorQuery) (qs : List String) (hx : List Turn)
    (hr : runTurns gen embed vquery [] qs = some hx) :
    hx.length = 2 * qs.length := by
  simpa using runTurns_length gen embed vquery qs [] hx hr

/-- Witness for C5: one completed exchange yields a history of length 2. -/
theorem session_history_length_witness :
    ([⟨Role.user, "Average lookup time of a BST is O(log n)."⟩,
      ⟨Role.model, "Average lookup time of a BST is O(log n)."⟩] : List Turn).length =
      2 * (["q1"] : List String).length :=
  session_history_length genOk embedOk vqueryOne ["q1"] _ rfl

/-- C1 (amended): a ServiceError thrown by the generation call does mutate
the history — the user turn holding the rewritten query was already pushed
before the call, so the state after the failed turn is the original history
plus that one user turn; only the model turn is missing. -/
theorem generation_failure_state (gen : GenModel) (embed : EmbedClient)
    (vquery : VectorQuery) (h : List Turn) (q rq : String) (qv : List Int)
    (sr : List MatchRec) (e : ServiceError)
    (h1 : gen (h ++ [⟨Role.user, q⟩]) rewriteInstruction = .ok rq)
    (h2 : embed rq = .ok qv)
    (h3 : vquery qv 10 = .ok sr)
    (h4 : gen (h ++ [⟨Role.user, rq⟩]) (answerInstruction (buildContext sr)) = .error e) :
    chatting gen embed vquery h q = (h ++ [⟨Role.user, rq⟩], .error e) := by
  unfold chatting
  rw [transformQuery_ok gen h q rq h1]
  simp [h2, h3, h4]

/-- Counterexample to C1 as stated: starting from the empty history, a turn
whose generation call fails with a ServiceError leaves a history different
from the one before the turn began. -/
theorem generation_failure_mutates_history :
    (chatting genFailAnswer embedOk vqueryOne [] "How fast is lookup?").2 =
      .error ⟨"generation"⟩ ∧
    (chatting genFailAnswer embedOk vqueryOne [] "How fast is lookup?").1 ≠
      ([] : List Turn) :=
  ⟨by decide, by decide⟩

/-- Witness for the amended C1 at a concrete input. -/
theorem generation_failure_state_witness :
    chatting genFailAnswer embedOk vqueryOne [] "How fast is lookup?" =
      ([⟨Role.user, demoRewritten⟩], .error ⟨"generation"⟩) :=
  generation_failure_state genFailAnswer embedOk vqueryOne [] "How fast is lookup?"
    demoRewritten [1, 2, 3] [demoMatch] ⟨"generation"⟩ rfl rfl rfl rfl

/-- C9 (amended): on a successfully completed turn the user turn appended
durably to the history holds the rewritten standalone query and the model
turn appended after it holds the generated response; the user turn is
appended before the generation call (it is part of the generation request,
as hypothesis h4 records), and only the model turn is appended after
generation. -/
theorem success_appends_rewritten_and_response (gen : GenModel)
    (embed : EmbedClient) (vquery : VectorQuery) (h : List Turn)
    (q rq : String) (qv : List Int) (sr : List MatchRec) (resp : String)
    (h1 : gen (h ++ [⟨Role.user, q⟩]) rewriteInstruction = .ok rq)
    (h2 : embed rq = .ok qv)
    (h3 : vquery qv 10 = .ok sr)
    (h4 : gen (h ++ [⟨Role.user, rq⟩]) (answerInstruction (buildContext sr)) = .ok resp) :
    chatting gen embed vquery h q =
      (h ++ [⟨Role.user, rq⟩, ⟨Role.model, resp⟩], .ok resp) :=
  chatting_ok gen embed vquery h q rq qv sr resp h1 h2 h3 h4

/-- Counterexample to the timing half of C9 as stated: when the generation
call fails, the user turn holding the rewritten query is already visible in
the history, so that append happened before generation, not after it. -/
theorem user_append_precedes_generation :
    (chatting genFailAnswer embedOk vqueryOne [] "And the worst case?").1 =
      [⟨Role.user, demoRewritten⟩] ∧
    (chatting genFailAnswer embedOk vqueryOne [] "And the worst case?").2 =
      .error ⟨"generation"⟩ :=
  ⟨by decide, by decide⟩

/-- Witness for the amended C9 at a concrete input. -/
theorem success_appends_witness :
    chatting genCompliant embedOk vqueryOne [] "What is a BST?" =
      ([⟨Role.user, demoRewritten⟩, ⟨Role.model, fallbackAnswer⟩],
        .ok fallbackAnswer) :=
  success_appends_rewritten_and_response genCompliant embedOk vqueryOne []
    "What is a BST?" demoRewritten [1, 2, 3] [demoMatch] fallbackAnswer
    rfl rfl rfl rfl

/-- C10: once the rewriting step has completed successfully, a failure of
the query-embedding call or of the vector-store nearest-neighbor query
leaves the history exactly as it was before the turn began — no component
writes to the history between the end of the rewrite and the append that
precedes generation. -/
theorem retrieval_failure_preserves_history (gen : GenModel)
    (embed : EmbedClient) (vquery : VectorQuery) (h : List Turn)
    (q rq : String)
    (h1 : gen (h ++ [⟨Role.user, q⟩]) rewriteInstruction = .ok rq) :
    (∀ e, embed rq = .error e → chatting gen embed vquery h q = (h, .error e)) ∧
    (∀ qv e, embed rq = .ok qv → vquery qv 10 = .error e →
      chatting gen embed vquery h q = (h, .error e)) := by
  constructor
  · intro e he
    unfold chatting
    rw [transformQuery_ok gen h q rq h1]
    simp [he]
  · intro qv e hqv hv
    unfold chatting
    rw [transformQuery_ok gen h q rq h1]
    simp [hqv, hv]

/-- Witness for C10: an embedding failure and a vector-store failure each
leave the empty history empty. -/
theorem retrieval_failure_witness :
    chatting genOk embedFail vqueryOne [] "What is a BST?" =
      ([], .error ⟨"embedding"⟩) ∧
    chatting genOk embedOk vqueryFail [] "What is a BST?" =
      ([], .error ⟨"vector-store"⟩) :=
  ⟨(retrieval_failure_preserves_history genOk embedFail vqueryOne []
      "What is a BST?" "Average lookup time of a BST is O(log n)." rfl).1
      ⟨"embedding"⟩ rfl,
   (retrieval_failure_preserves_history genOk embedOk vqueryFail []
      "What is a BST?" "Average lookup time of a BST is O(log n)." rfl).2
      [1, 2, 3] ⟨"vector-store"⟩ rfl rfl⟩

/-- C3 (amended): when the rewriting model call succeeds, the externally
visible history after the rewrite equals the history before it and the only
output is the rewritten query string; when the call fails, the provisional
user turn remains appended to the history, because the pop is skipped on
the exception path. -/
theorem rewrite_restores_history (gen : GenModel) (h : List Turn) (q : String) :
    (∀ t, gen (h ++ [⟨Role.user, q⟩]) rewriteInstruction = .ok t →
      transformQuery gen h q = (h, .ok t)) ∧
    (∀ e, gen (h ++ [⟨Role.user, q⟩]) rewriteInstruction = .error e →
      transformQuery gen h q = (h ++ [⟨Role.user, q⟩], .error e)) :=
  ⟨fun t ht => transformQuery_ok gen h q t ht,
   fun e he => transformQuery_error gen h q e he⟩

/-- Counterexample to C3 as stated: when the rewriting model call fails,
the provisional user turn remains in the visible history. -/
theorem rewrite_failure_keeps_provisional_turn :
    transformQuery genFailAlways [] "hello" =
      ([⟨Role.user, "hello"⟩], .error ⟨"rewrite"⟩) ∧
    ([⟨Role.user, "hello"⟩] : List Turn) ≠ [] :=
  ⟨by decide, by decide⟩

/-- Witness for the amended C3 at a concrete input. -/
theorem rewrite_restores_history_witness :
    transformQuery genOk [] "What is a BST?" =
      ([], .ok "Average lookup time of a BST is O(log n).") :=
  (rewrite_restores_history genOk [] "What is a BST?").1
    "Average lookup time of a BST is O(log n)." rfl

/-- C7: the ingestion phase and the query phase configure the embedding
client with the identical model identifier and api-key source, so query
vectors and stored vectors lie in the same embedding space; any dimension
assignment keyed by the model identifier agrees on both phases. -/
theorem embedding_space_consistency :
    ingestionEmbeddings = queryEmbeddings ∧
    ingestionEmbeddings.model = queryEmbeddings.model ∧
    ∀ dim : String → Nat, dim ingestionEmbeddings.model = dim queryEmbeddings.model :=
  ⟨rfl, rfl, fun _ => rfl⟩

/-- Unfolding the accumulator loop of `String.intercalate`. -/
theorem intercalate_go_eq (s : String) :
    ∀ (as : List String) (acc : String),
      String.intercalate.go acc s as = acc ++ joinTail s as := by
  intro as
  induction as with
  | nil =>
    intro acc
    simp [String.intercalate.go, joinTail, String.append_empty]
  | cons a as ih =>
    intro acc
    rw [show String.intercalate.go acc s (a :: as) =
          String.intercalate.go (acc ++ s ++ a) s as from rfl]
    rw [ih]
    simp [joinTail, String.append_assoc]

/-- The spec-side join of a nonempty list is its head followed by the
separated tail. -/
theorem joinSpec_cons (s : String) :
    ∀ (as : List String) (a : String),
      joinSpec s (a :: as) = a ++ joinTail s as := by
  intro as
  induction as with
  | nil => intro a; simp [joinSpec, joinTail, String.append_empty]
  | cons b bs ih =>
    intro a
    rw [show joinSpec s (a :: b :: bs) = a ++ s ++ joinSpec s (b :: bs) from rfl]
    rw [ih b]
    simp [joinTail, String.append_assoc]

/-- C8: the context assembler returns the texts of the retrieval results in
the given order joined by the one fixed delimiter, and the empty retrieval
yields the empty string, not an error; the output is a deterministic
function of the input sequence. -/
theorem context_assembly_spec :
    (∀ results : List MatchRec,
      buildContext results =
        joinSpec contextSeparator (results.map (fun m => m.metadata.text))) ∧
    buildContext [] = "" := by
  constructor
  · intro results
    unfold buildContext
    cases hm : results.map (fun m => m.metadata.text) with
    | nil => rfl
    | cons a as =>
      rw [show String.intercalate contextSeparator (a :: as) =
            String.intercalate.go a contextSeparator as from rfl]
      rw [intercalate_go_eq contextSeparator as a]
      rw [joinSpec_cons contextSeparator as a]
  · rfl

/-- C4 (amended): for a query whose retrieval returns an empty
RetrievalResult, the system instruction handed to the generation model
embeds the literal fallback sentence (the instruction text contains it
verbatim) and the answer operation returns the model output unchanged, so
it returns exactly the fallback string whenever the model complies with the
instruction; the code itself does not enforce the exact match. -/
theorem empty_retrieval_fallback (gen : GenModel) (embed : EmbedClient)
    (vquery : VectorQuery) (h : List Turn) (q rq : String) (qv : List Int)
    (h1 : gen (h ++ [⟨Role.user, q⟩]) rewriteInstruction = .ok rq)
    (h2 : embed rq = .ok qv)
    (h3 : vquery qv 10 = .ok [])
    (h4 : gen (h ++ [⟨Role.user, rq⟩]) (answerInstruction "") = .ok fallbackAnswer) :
    (chatting gen embed vquery h q).2 = .ok fallbackAnswer ∧
    ∃ a b, answerInstructionPre = a ++ (fallbackAnswer ++ b) := by
  constructor
  · have hb : buildContext ([] : List MatchRec) = "" := rfl
    have hmain := chatting_ok gen embed vquery h q rq qv [] fallbackAnswer h1 h2 h3
      (by rw [hb]; exact h4)
    rw [hmain]
  · refine ⟨"You have to behave like a Data Structure and Algorithm Expert.\n    You will be given a context of relevant information and a user question.\n    Your task is to answer the user's question based ONLY on the provided context.\n    If the answer is not in the context, you must say \"",
      "\"\n    Keep your answers clear, concise, and educational.\n      \n      Context: ", ?_⟩
    rfl

/-- Counterexample to C4 as stated: with an empty retrieval, a generation
model that does not follow the instruction makes the answer operation
return something other than the literal fallback string — the exact-match
fallback is not enforced by the code. -/
theorem empty_retrieval_not_exact :
    vqueryEmpty [1, 2, 3] 10 = .ok [] ∧
    (chatting genOffTopic embedOk vqueryEmpty [] "Does it cover hashing?").2 ≠
      .ok fallbackAnswer :=
  ⟨rfl, by decide⟩

/-- Witness for the amended C4 at a concrete input with a compliant model. -/
theorem empty_retrieval_fallback_witness :
    (chatting genCompliant embedOk vqueryEmpty [] "Does it cover hashing?").2 =
      .ok fallbackAnswer ∧
    ∃ a b, answerInstructionPre = a ++ (fallbackAnswer ++ b) :=
  empty_retrieval_fallback genCompliant embedOk vqueryEmpty []
    "Does it cover hashing?" demoRewritten [1, 2, 3] rfl rfl rfl rfl

/-- Closed form of the chunk scan: with a positive step, fuel beyond the
remaining length never truncates; element i sits at offset
`off + i * (chunkSize - overlap)` and the scan stops exactly when the
offset leaves the text. -/
theorem chunkGo_spec (text : List Char) (S O : Nat) (hO : O < S) :
    ∀ (fuel off : Nat), text.length - off < fuel →
      (∀ i, i < (chunkGo text S O off fuel).length ↔
        off + i * (S - O) < text.length) ∧
      (∀ i (hi : i < (chunkGo text S O off fuel).length),
        (chunkGo text S O off fuel).get ⟨i, hi⟩ =
          (text.drop (off + i * (S - O))).take S) := by
  intro fuel
  induction fuel with
  | zero => intro off hoff; exact absurd hoff (Nat.not_lt_zero _)
  | succ fuel ih =>
    intro off hoff
    by_cases hlt : off < text.length
    · rw [show chunkGo text S O off (fuel + 1) =
            ((text.drop off).take S) :: chunkGo text S O (off + (S - O)) fuel from
          by simp [chunkGo, hlt]]
      have hstep : text.length - (off + (S - O)) < fuel := by omega
      obtain ⟨ihl, ihg⟩ := ih (off + (S - O)) hstep
      constructor
      · intro i
        cases i with
        | zero => simpa using hlt
        | succ j =>
          have hj := ihl j
          simp only [List.length_cons, Nat.succ_mul, add_one_mul]
          omega
      · intro i hi
        cases i with
        | zero => simp
        | succ j =>
          have hj : j < (chunkGo text S O (off + (S - O)) fuel).length := by
            simpa using hi
          rw [List.get_cons_succ]
          rw [ihg j hj]
          have harith : off + (S - O) + j * (S - O) = off + (j + 1) * (S - O) := by
            simp only [Nat.succ_mul, add_one_mul]
            omega
          rw [harith]
    · rw [show chunkGo text S O off (fuel + 1) = [] from by simp [chunkGo, hlt]]
      refine ⟨fun i => ?_, fun i hi => absurd hi (by simp)⟩
      simp only [List.length_nil]
      constructor
      · intro hx; omega
      · intro hx; omega

/-- C6: for chunkSize > 0 and overlap < chunkSize the chunker scans left to
right, chunk i being `text[offset : offset + chunkSize]` at offset
`i * (chunkSize - overlap)` — each successive offset advancing by exactly
`chunkSize - overlap` — stopping exactly when the offset reaches the end of
the text and never emitting an empty chunk; for overlap >= chunkSize the
chunk operation fails with ConfigError before producing any chunk. -/
theorem chunker_spec (text : List Char) (S O : Nat) :
    (O < S →
      ∃ cs, chunk text S O = .ok cs ∧
        (∀ i, i < cs.length ↔ i * (S - O) < text.length) ∧
        (∀ i (hi : i < cs.length),
          cs.get ⟨i, hi⟩ = (text.drop (i * (S - O))).take S) ∧
        (∀ c ∈ cs, c ≠ [])) ∧
    (S ≤ O → chunk text S O = .error ConfigError.overlapGeChunkSize) := by
  constructor
  · intro hO
    have hns : ¬ S ≤ O := by omega
    obtain ⟨hl, hg⟩ := chunkGo_spec text S O hO (text.length + 1) 0 (by omega)
    refine ⟨chunkGo text S O 0 (text.length + 1), by simp [chunk, hns], ?_, ?_, ?_⟩
    · intro i
      simpa using hl i
    · intro i hi
      simpa using hg i hi
    · intro c hc
      obtain ⟨⟨i, hi⟩, hgi⟩ := List.mem_iff_get.mp hc
      have hioff : 0 + i * (S - O) < text.length := (hl i).mp hi
      have hlen : c.length ≠ 0 := by
        rw [← hgi, hg i hi]
        simp only [List.length_take, List.length_drop]
        omega
      intro hnil
      exact hlen (by rw [hnil]; rfl)
  · intro hle
    simp [chunk, hle]

/-- Witness for C6 at a concrete document with chunkSize 3, overlap 1, and
at the failing configuration chunkSize 1, overlap 2. -/
theorem chunker_spec_witness :
    (∃ cs, chunk ['a', 'b', 'c', 'd', 'e'] 3 1 = .ok cs ∧
      (∀ i, i < cs.length ↔
        i * (3 - 1) < (['a', 'b', 'c', 'd', 'e'] : List Char).length) ∧
      (∀ i (hi : i < cs.length),
        cs.get ⟨i, hi⟩ =
          ((['a', 'b', 'c', 'd', 'e'] : List Char).drop (i * (3 - 1))).take 3) ∧
      (∀ c ∈ cs, c ≠ [])) ∧
    chunk ['a', 'b', 'c', 'd', 'e'] 1 2 = .error ConfigError.overlapGeChunkSize :=
  ⟨(chunker_spec ['a', 'b', 'c', 'd', 'e'] 3 1).1 (by decide),
   (chunker_spec ['a', 'b', 'c', 'd', 'e'] 1 2).2 (by decide)⟩

/-- Upserting keeps every id that was already present in the store. -/
theorem hasId_upsertOne_of (s : VectorStore) (v : IndexedVector) (j : String)
    (hj : hasId s j = true) : hasId (upsertOne s v) j = true := by
  rw [hasId, List.any_eq_true] at hj
  obtain ⟨w, hw, hwj⟩ := hj
  unfold upsertOne
  split
  · rw [hasId, List.any_eq_true]
    refine ⟨_, List.mem_map.mpr ⟨w, hw, rfl⟩, ?_⟩
    by_cases hwv : (w.id == v.id) = true
    · have hv1 : w.id = v.id := by simpa using hwv
      have hv2 : w.id = j := by simpa using hwj
      simp [hwv, ← hv1, hv2]
    · simp only [hwv, if_false, Bool.false_eq_true]
      simpa using hwj
  · rw [hasId, List.any_eq_true]
    exact ⟨w, List.mem_append_left _ hw, hwj⟩

/-- Upserting a row makes its own id present. -/
theorem hasId_upsertOne_self (s : VectorStore) (v : IndexedVector) :
    hasId (upsertOne s v) v.id = true := by
  unfold upsertOne
  split
  next hcond =>
    rw [hasId, List.any_eq_true] at hcond ⊢
    obtain ⟨w, hw, hwv⟩ := hcond
    refine ⟨_, List.mem_map.mpr ⟨w, hw, rfl⟩, ?_⟩
    simp [hwv]
  next hcond =>
    rw [hasId, List.any_eq_true]
    exact ⟨v, List.mem_append_right _ (by simp), by simp⟩

/-- Upserting a row whose id is already present keeps the row count. -/
theorem length_upsertOne_of_hasId (s : VectorStore) (v : IndexedVector)
    (hv : hasId s v.id = true) : (upsertOne s v).length = s.length := by
  unfold upsertOne
  rw [if_pos hv, List.length_map]

/-- Upserting a batch keeps every id that was already present. -/
theorem hasId_upsertMany_of (j : String) :
    ∀ (vs : List IndexedVector) (s : VectorStore),
      hasId s j = true → hasId (upsertMany s vs) j = true := by
  intro vs
  induction vs with
  | nil => intro s hj; exact hj
  | cons v vs ih =>
    intro s hj
    rw [show upsertMany s (v :: vs) = upsertMany (upsertOne s v) vs from rfl]
    exact ih _ (hasId_upsertOne_of s v j hj)

/-- After upserting a batch, every id of the batch is present. -/
theorem hasId_upsertMany_mem :
    ∀ (vs : List IndexedVector) (s : VectorStore) (v : IndexedVector),
      v ∈ vs → hasId (upsertMany s vs) v.id = true := by
  intro vs
  induction vs with
  | nil => intro s v hv; cases hv
  | cons w vs ih =>
    intro s v hv
    rw [show upsertMany s (w :: vs) = upsertMany (upsertOne s w) vs from rfl]
    rcases List.mem_cons.mp hv with hh | hh
    · subst hh; exact hasId_upsertMany_of v.id vs _ (hasId_upsertOne_self s v)
    · exact ih _ v hh

/-- Upserting a batch whose ids are all already present keeps the count. -/
theorem length_upsertMany_of_all :
    ∀ (vs : List IndexedVector) (s : VectorStore),
      (∀ v ∈ vs, hasId s v.id = true) → (upsertMany s vs).length = s.length := by
  intro vs
  induction vs with
  | nil => intro s _; rfl
  | cons v vs ih =>
    intro s hall
    rw [show upsertMany s (v :: vs) = upsertMany (upsertOne s v) vs from rfl]
    have hrest : (upsertMany (upsertOne s v) vs).length = (upsertOne s v).length := by
      apply ih
      intro w hw
      exact hasId_upsertOne_of s v w.id (hall w (List.mem_cons_of_mem _ hw))
    rw [hrest, length_upsertOne_of_hasId s v (hall v (List.mem_cons_self _ _))]

/-- C2: re-ingesting the same document with the same chunkSize and overlap
leaves the Vector Store with the same number of IndexedVectors as a single
ingestion: every (vector, text) pair is upserted under the stable id
`sourceId#offset`, so the second pass overwrites rows instead of adding
new ones. -/
theorem reingestion_preserves_count (embed : List Char → List Int)
    (store s1 s2 : VectorStore) (d : Document) (S O : Nat)
    (h1 : ingest embed store d S O = .ok s1)
    (h2 : ingest embed s1 d S O = .ok s2) :
    s2.length = s1.length := by
  unfold ingest at h1 h2
  rcases hch : chunk d.text S O with e | cs
  · rw [hch] at h1; simp at h1
  · rw [hch] at h1 h2
    simp only [Except.ok.injEq] at h1 h2
    subst h1
    subst h2
    apply length_upsertMany_of_all
    intro v hv
    exact hasId_upsertMany_mem _ store v hv

/-- Witness for C2: ingesting the three-character demo document twice with
chunkSize 2 and overlap 1 leaves the same number of rows as a single
ingestion. -/
theorem reingestion_preserves_count_witness :
    demoStore2.length = demoStore1.length :=
  reingestion_preserves_count demoEmbed [] demoStore1 demoStore2 demoDoc 2 1
    (by decide) (by decide)

end ChatWithPdf
